import Mathlib

/-! Verification of the lux-ffi core (crates/lux-ffi).

A shallow embedding, in Lean 4, of the FFI engine of the `lux` runtime:

* `types.rs`   — the `CType` algebra with `size`/`align`/`parse`;
* `registry.rs`— the name→definition registry (structs, enums, typedefs, funcs);
* `parser.rs`  — the best-effort C declaration parser (`parse_cdef` and its
  helpers);
* `memory.rs`  — the owned/borrowed `CBox` allocation discipline;
* `call.rs`    — the argument-count validation of the two generic invocation
  paths (`invoke_cached`, `invoke_impl`);
* `callback.rs`— the callback trampoline's error handling
  (`callback_trampoline`, `lua_to_c_result`);
* `batch.rs`   — the batch loop (`ffi_batch`).

Modelling conventions:

* Rust `String`/`&str` values are modelled as `List Char` (`Str` below).
  Rust's byte indices coincide with character indices on ASCII input, which
  is the domain the parser handles; all slicing in the source is modelled at
  character granularity.  A Rust slice expression `&s[a..b]` panics when
  `a > b`; that panic is modelled by `sliceChk` returning `none`, and
  functions of the parser that can reach such a slice return `Option _`
  with `none` meaning "panic".
* The `Result<_, String>` error channel of `parser.rs` is modelled by
  `Except Str _` at the top level (`parse_cdef`).  No function in
  `parser.rs` ever constructs an `Err`, and the internal helpers are
  modelled as total functions accordingly (plus the `Option` panic layer).
* The build configuration is fixed to the one the repository targets in
  this workspace: non-Windows, 64-bit pointers, signed `char`
  (`cfg!(windows) = false`, `target_pointer_width = "64"`, x86-64
  `c_char = i8`).  So `long`/`unsigned long` are 8 bytes and pointers are
  8 bytes.
* Loops that are not structurally recursive are written with a fuel
  parameter that is, at every call site, at least the number of iterations
  the Rust loop can make (each iteration consumes at least one character /
  line), so the fuel-exhausted branch is unreachable; it is noted at each
  definition.
* Host (Lua) values are modelled by `HostVal`; `f64` payloads are modelled
  as rationals (`ℚ`), which is faithful for every value the theorems below
  evaluate (no rounding is exercised).
-/

set_option autoImplicit false

/-- Rust strings, modelled as character lists (exact for ASCII input). -/
abbrev Str := List Char

/-- Rust `char::is_whitespace` restricted to the ASCII range (space, tab, LF,
VT, FF, CR), which is all the parser's input uses. -/
def wsChar (c : Char) : Bool :=
  c = ' ' || c = '\t' || c = '\n' || c = '\x0b' || c = '\x0c' || c = '\r'

/-- Rust `str::trim_start`. -/
def trimStart (s : Str) : Str := s.dropWhile wsChar

/-- Rust `str::trim_end`. -/
def trimEnd (s : Str) : Str := (s.reverse.dropWhile wsChar).reverse

/-- Rust `str::trim`. -/
def trim (s : Str) : Str := trimEnd (trimStart s)

/-- Rust `str::starts_with(pat)` for a string pattern. -/
def isPre : Str → Str → Bool
  | [], _ => true
  | _ :: _, [] => false
  | p :: ps, c :: cs => p = c && isPre ps cs

/-- Rust `str::strip_prefix(pat)`. -/
def stripPre : Str → Str → Option Str
  | [], s => some s
  | _ :: _, [] => none
  | p :: ps, c :: cs => if p = c then stripPre ps cs else none

/-- Rust `str::contains(char)`. -/
def containsChar (c : Char) (s : Str) : Bool := s.any (· = c)

/-- Rust `str::contains(&str)` (substring search). -/
def containsStr (pat : Str) : Str → Bool
  | [] => isPre pat []
  | c :: cs => isPre pat (c :: cs) || containsStr pat cs

/-- Rust `str::find(char)`: index of the first occurrence. -/
def findChar (c : Char) : Str → Option Nat
  | [] => none
  | x :: xs => if x = c then some 0 else (findChar c xs).map (· + 1)

/-- Rust `str::rfind(char)`: index of the last occurrence. -/
def rfindChar (c : Char) : Str → Option Nat
  | [] => none
  | x :: xs =>
    match rfindChar c xs with
    | some i => some (i + 1)
    | none => if x = c then some 0 else none

/-- Rust `str::ends_with(char)`. -/
def endsWithChar (c : Char) (s : Str) : Bool := s.getLast? = some c

/-- Rust `str::split(char)`: yields every (possibly empty) piece. -/
def splitChar (c : Char) : Str → List Str
  | [] => [[]]
  | x :: xs =>
    if x = c then [] :: splitChar c xs
    else
      match splitChar c xs with
      | h :: t => (x :: h) :: t
      | [] => [[x]]

/-- Rust `s.split(pat).next().unwrap_or("")`: the prefix before the first
occurrence of `pat` (the whole string when `pat` does not occur). -/
def beforeFirst (pat : Str) : Str → Str
  | [] => []
  | c :: cs => if isPre pat (c :: cs) then [] else c :: beforeFirst pat cs

/-- Rust `str::trim_end_matches(char)`: removes every trailing occurrence. -/
def trimEndMatchesChar (c : Char) (s : Str) : Str :=
  (s.reverse.dropWhile (· = c)).reverse

/-- Rust `str::trim_start_matches(char)`. -/
def trimStartMatchesChar (c : Char) (s : Str) : Str := s.dropWhile (· = c)

/-- Rust `str::trim_matches(char)` (both ends). -/
def trimMatchesChar (c : Char) (s : Str) : Str :=
  trimEndMatchesChar c (trimStartMatchesChar c s)

/-- One step of `split_whitespace`, with fuel (the fuel is at least the
length of the string at every call site, and every step consumes at least
one character, so the `0` branch is unreachable). -/
def splitWsGo : Nat → Str → List Str
  | 0, _ => []
  | _ + 1, [] => []
  | fuel + 1, c :: cs =>
    if wsChar c then splitWsGo fuel cs
    else
      (c :: cs.takeWhile (fun x => !wsChar x)) ::
        splitWsGo fuel (cs.dropWhile (fun x => !wsChar x))

/-- Rust `str::split_whitespace`: maximal runs of non-whitespace. -/
def splitWs (s : Str) : List Str := splitWsGo (s.length + 1) s

/-- Rust `String::replace(pat, rep)` for a non-empty pattern, with fuel
(`s.length + 1` suffices: every step consumes at least one character). -/
def replaceGo (pat rep : Str) : Nat → Str → Str
  | 0, s => s
  | _ + 1, [] => []
  | fuel + 1, c :: cs =>
    if isPre pat (c :: cs) then rep ++ replaceGo pat rep fuel ((c :: cs).drop pat.length)
    else c :: replaceGo pat rep fuel cs

/-- Rust `String::replace(pat, rep)`; the uses in the source all have non-empty
patterns. -/
def replaceStr (pat rep s : Str) : Str := replaceGo pat rep (s.length + 1) s

/-- Rust `slice::join(sep)` on strings. -/
def joinSep (sep : Str) : List Str → Str
  | [] => []
  | [x] => x
  | x :: y :: t => x ++ sep ++ joinSep sep (y :: t)

/-- Rust `str::to_uppercase` restricted to ASCII (the only characters the
convention-keyword search meets). -/
def asciiUpper (s : Str) : Str := s.map Char.toUpper

/-- Rust `char::is_uppercase` restricted to ASCII. -/
def rustIsUpper (c : Char) : Bool := 'A' ≤ c && c ≤ 'Z'

def isDigitChar (c : Char) : Bool := '0' ≤ c && c ≤ '9'

def digitVal (c : Char) : Nat := c.toNat - '0'.toNat

def isHexDigitChar (c : Char) : Bool :=
  isDigitChar c || ('a' ≤ c && c ≤ 'f') || ('A' ≤ c && c ≤ 'F')

def hexDigitVal (c : Char) : Nat :=
  if isDigitChar c then digitVal c
  else if 'a' ≤ c && c ≤ 'f' then c.toNat - 'a'.toNat + 10
  else c.toNat - 'A'.toNat + 10

/-- Digit-string accumulation in a base. -/
def digitsVal (base : Nat) (dv : Char → Nat) (s : Str) : Nat :=
  s.foldl (fun acc c => acc * base + dv c) 0

/-- Rust `str::parse::<usize>()`: optional `+`, at least one decimal digit,
value below `2^64` (64-bit `usize`). -/
def rustParseUsize (s : Str) : Option Nat :=
  let t := match s with
    | '+' :: r => r
    | r => r
  if t ≠ [] && t.all isDigitChar then
    let v := digitsVal 10 digitVal t
    if v < 2 ^ 64 then some v else none
  else none

/-- Rust `str::parse::<i64>()`: optional sign, decimal digits, i64 bounds. -/
def rustParseI64 (s : Str) : Option Int :=
  let (sgn, t) : Int × Str := match s with
    | '+' :: r => (1, r)
    | '-' :: r => (-1, r)
    | r => (1, r)
  if t ≠ [] && t.all isDigitChar then
    let v : Int := sgn * (digitsVal 10 digitVal t : Nat)
    if -(2 ^ 63) ≤ v ∧ v ≤ 2 ^ 63 - 1 then some v else none
  else none

/-- Rust `i64::from_str_radix(s, 16)`: optional sign, hex digits, i64 bounds. -/
def rustParseHexI64 (s : Str) : Option Int :=
  let (sgn, t) : Int × Str := match s with
    | '+' :: r => (1, r)
    | '-' :: r => (-1, r)
    | r => (1, r)
  if t ≠ [] && t.all isHexDigitChar then
    let v : Int := sgn * (digitsVal 16 hexDigitVal t : Nat)
    if -(2 ^ 63) ≤ v ∧ v ≤ 2 ^ 63 - 1 then some v else none
  else none

/-- Two's-complement wraps for Rust fixed-width integer arithmetic and
`as` casts (release-build overflow semantics). -/
def wrapU (bits : Nat) (x : Int) : Int := x.emod (2 ^ bits)

def wrapS (bits : Nat) (x : Int) : Int :=
  (x + 2 ^ (bits - 1)).emod (2 ^ bits) - 2 ^ (bits - 1)

/-- A checked Rust slice `&s[a..b]`: `none` models the slice-bounds panic
(`a > b` or `b > s.len()`). -/
def sliceChk (s : Str) (a b : Nat) : Option Str :=
  if a ≤ b ∧ b ≤ s.length then some ((s.take b).drop a) else none

/-- Rust `str::lines`: split on `\n`, dropping the piece after a trailing
newline, and stripping one trailing `\r` from each line. -/
def rustLines (s : Str) : List Str :=
  if s = [] then []
  else
    let ps := splitChar '\n' s
    let ps := if endsWithChar '\n' s then ps.dropLast else ps
    ps.map fun l =>
      match l.getLast? with
      | some '\r' => l.dropLast
      | _ => l

/-! Section: Type system (`types.rs`) -/

/-- Calling convention (`types.rs`). -/
inductive CallConv where
  | C | Stdcall | Fastcall | Win64
deriving DecidableEq

/-- The C type algebra (`types.rs`, `enum CType`).  `FuncType`'s fields
(`ret`, `args`, `variadic`, `conv`) are inlined into the `Function`
constructor (the Rust `Box<FuncType>` is a single-constructor struct). -/
inductive CType where
  | Void | Bool | Char | UChar | Short | UShort | Int | UInt | Long | ULong
  | LongLong | ULongLong
  | Int8 | UInt8 | Int16 | UInt16 | Int32 | UInt32 | Int64 | UInt64
  | Float | Double | WChar
  | Pointer (inner : Option CType)
  | Array (elem : CType) (count : Nat)
  | Struct (name : Str)
  | Union (name : Str)
  | Enum (name : Str)
  | Function (ret : CType) (args : List CType) (variadic : Bool) (conv : CallConv)
  | GUID | HRESULT

/-- Struct field (`types.rs`, `struct Field`; named `CField` because `Field`
is taken by Mathlib's algebraic class). -/
structure CField where
  name : Str
  ctype : CType
  offset : Nat
  bits : Option (Nat × Nat)

/-- Struct/union definition (`types.rs`, `struct StructDef`). -/
structure StructDef where
  name : Str
  fields : List CField
  size : Nat
  align : Nat
  is_union : Bool
  is_packed : Bool

/-- Function signature (`types.rs`, `struct FuncSig`). -/
structure FuncSig where
  name : Str
  ret : CType
  args : List (Str × CType)
  variadic : Bool
  conv : CallConv

/-! Section: Registry (`registry.rs`)

The four `HashMap`s are modelled as association lists with
insert-overwrite semantics (`lookupA` finds the binding of a key,
`insertA` replaces it). -/

def lookupA {α : Type} (k : Str) : List (Str × α) → Option α
  | [] => none
  | (k', v) :: t => if k' = k then some v else lookupA k t

def insertA {α : Type} (k : Str) (v : α) (l : List (Str × α)) : List (Str × α) :=
  (k, v) :: l.filter (fun p => decide (p.1 ≠ k))

structure Registry where
  structs : List (Str × StructDef)
  enums : List (Str × List (Str × Int))
  typedefs : List (Str × CType)
  funcs : List (Str × FuncSig)

def Registry.empty : Registry := ⟨[], [], [], []⟩

def Registry.add_struct (r : Registry) (d : StructDef) : Registry :=
  { r with structs := insertA d.name d r.structs }

def Registry.add_enum (r : Registry) (n : Str) (vs : List (Str × Int)) : Registry :=
  { r with enums := insertA n vs r.enums }

def Registry.add_typedef (r : Registry) (n : Str) (t : CType) : Registry :=
  { r with typedefs := insertA n t r.typedefs }

def Registry.add_func (r : Registry) (sig : FuncSig) : Registry :=
  { r with funcs := insertA sig.name sig r.funcs }

def Registry.get_struct (r : Registry) (n : Str) : Option StructDef := lookupA n r.structs
def Registry.has_struct (r : Registry) (n : Str) : Bool := (r.get_struct n).isSome
def Registry.get_enum (r : Registry) (n : Str) : Option (List (Str × Int)) := lookupA n r.enums
def Registry.has_enum (r : Registry) (n : Str) : Bool := (r.get_enum n).isSome
def Registry.get_typedef (r : Registry) (n : Str) : Option CType := lookupA n r.typedefs
def Registry.get_func (r : Registry) (n : Str) : Option FuncSig := lookupA n r.funcs
def Registry.struct_size (r : Registry) (n : Str) : Option Nat := (r.get_struct n).map (·.size)
def Registry.struct_align (r : Registry) (n : Str) : Option Nat := (r.get_struct n).map (·.align)

/-- Rust `CType::size` (`types.rs`).  Pointer width is 8 (64-bit build). -/
def CType.size (reg : Registry) : CType → Nat
  | .Void => 0
  | .Bool | .Char | .UChar | .Int8 | .UInt8 => 1
  | .Short | .UShort | .Int16 | .UInt16 | .WChar => 2
  | .Int | .UInt | .Int32 | .UInt32 | .Float | .HRESULT => 4
  | .Long | .ULong | .LongLong | .ULongLong | .Int64 | .UInt64 | .Double => 8
  | .GUID => 16
  | .Pointer _ | .Function _ _ _ _ => 8
  | .Array elem count => elem.size reg * count
  | .Struct n | .Union n => (reg.struct_size n).getD 0
  | .Enum _ => 4

/-- Rust `CType::align` (`types.rs`). -/
def CType.align (reg : Registry) : CType → Nat
  | .Void => 1
  | .Bool | .Char | .UChar | .Int8 | .UInt8 => 1
  | .Short | .UShort | .Int16 | .UInt16 | .WChar => 2
  | .Int | .UInt | .Int32 | .UInt32 | .Float | .Enum _ | .HRESULT => 4
  | .Long | .ULong | .LongLong | .ULongLong | .Int64 | .UInt64 | .Double => 8
  | .GUID => 4
  | .Pointer _ | .Function _ _ _ _ => 8
  | .Array elem _ => elem.align reg
  | .Struct n | .Union n => (reg.struct_align n).getD 1

set_option maxHeartbeats 1000000 in
/-- The primitive-keyword table of `CType::parse` (`types.rs`): each match
arm becomes one binding per pattern (the keys are pairwise distinct, so a
first-match lookup is equivalent to the Rust `match`).  Platform policy:
non-Windows, 64-bit (`long` is 8 bytes, `char` signed).  The three `*`-keys
mirror dead arms of the source (the pointer-suffix branch fires first). -/
def primitives : List (Str × CType) :=
  [ ("void".toList, .Void),
    ("bool".toList, .Int), ("_Bool".toList, .Int), ("BOOL".toList, .Int),
    ("char".toList, .Char), ("int8_t".toList, .Char), ("signed char".toList, .Char),
    ("unsigned char".toList, .UChar), ("uint8_t".toList, .UChar),
    ("BYTE".toList, .UChar), ("byte".toList, .UChar),
    ("short".toList, .Short), ("int16_t".toList, .Short), ("SHORT".toList, .Short),
    ("unsigned short".toList, .UShort), ("uint16_t".toList, .UShort),
    ("USHORT".toList, .UShort), ("WORD".toList, .UShort),
    ("int".toList, .Int), ("int32_t".toList, .Int), ("signed".toList, .Int),
    ("INT".toList, .Int), ("HRESULT".toList, .Int),
    ("unsigned".toList, .UInt), ("unsigned int".toList, .UInt),
    ("uint32_t".toList, .UInt), ("UINT".toList, .UInt), ("DWORD".toList, .UInt),
    ("long".toList, .Long), ("long int".toList, .Long),
    ("unsigned long".toList, .ULong),
    ("long long".toList, .Long), ("int64_t".toList, .Long), ("LONGLONG".toList, .Long),
    ("unsigned long long".toList, .ULong), ("uint64_t".toList, .ULong),
    ("ULONGLONG".toList, .ULong),
    ("intptr_t".toList, .Long), ("ptrdiff_t".toList, .Long), ("ssize_t".toList, .Long),
    ("uintptr_t".toList, .ULong), ("size_t".toList, .ULong),
    ("ULONG_PTR".toList, .ULong), ("DWORD_PTR".toList, .ULong), ("SIZE_T".toList, .ULong),
    ("float".toList, .Float), ("FLOAT".toList, .Float),
    ("double".toList, .Double), ("DOUBLE".toList, .Double),
    ("char*".toList, .Pointer (some .Char)), ("const char*".toList, .Pointer (some .Char)),
    ("LPCSTR".toList, .Pointer (some .Char)), ("LPSTR".toList, .Pointer (some .Char)),
    ("PCSTR".toList, .Pointer (some .Char)), ("PSTR".toList, .Pointer (some .Char)),
    ("wchar_t*".toList, .Pointer (some .UShort)),
    ("const wchar_t*".toList, .Pointer (some .UShort)),
    ("LPCWSTR".toList, .Pointer (some .UShort)), ("LPWSTR".toList, .Pointer (some .UShort)),
    ("PCWSTR".toList, .Pointer (some .UShort)), ("PWSTR".toList, .Pointer (some .UShort)),
    ("HWND".toList, .Pointer none), ("HANDLE".toList, .Pointer none),
    ("HINSTANCE".toList, .Pointer none), ("HMODULE".toList, .Pointer none),
    ("HDC".toList, .Pointer none), ("HBRUSH".toList, .Pointer none),
    ("HPEN".toList, .Pointer none), ("HICON".toList, .Pointer none),
    ("HCURSOR".toList, .Pointer none), ("HMENU".toList, .Pointer none),
    ("HFONT".toList, .Pointer none), ("HBITMAP".toList, .Pointer none),
    ("HRGN".toList, .Pointer none), ("HGDIOBJ".toList, .Pointer none),
    ("LPVOID".toList, .Pointer none), ("PVOID".toList, .Pointer none),
    ("LPCVOID".toList, .Pointer none),
    ("WPARAM".toList, .Long), ("LPARAM".toList, .Long), ("LRESULT".toList, .Long),
    ("ATOM".toList, .UShort) ]

/-- The `LP*`/`P*` pointer-naming heuristic of `CType::parse`
(`types.rs`): prefix `LP` (or `P`), length above 2, and the character
after the prefix uppercase. -/
def lpHeuristic (s : Str) : Bool :=
  (isPre "LP".toList s || isPre "P".toList s) && s.length > 2 &&
    (((s.get? (if isPre "LP".toList s then 2 else 1)).map rustIsUpper).getD false)

/-- The qualifier stripping at the head of `CType::parse` (`types.rs`):
trim, then strip each of `const `/`volatile `/`static `/`extern ` once, in
order, re-trimming after each. -/
def stripTypeQualifiers (s0 : Str) : Str :=
  let s := trim s0
  let s := trim ((stripPre "const ".toList s).getD s)
  let s := trim ((stripPre "volatile ".toList s).getD s)
  let s := trim ((stripPre "static ".toList s).getD s)
  trim ((stripPre "extern ".toList s).getD s)

/-- Rust `CType::parse` (`types.rs`), fuel-indexed: each recursive call (array
element type, pointer base type) is on a strictly shorter string, so fuel
`s.length + 1` is never exhausted. -/
def CType.parseGo (reg : Registry) : Nat → Str → Option CType
  | 0, _ => none
  | fuel + 1, s0 =>
    let s := stripTypeQualifiers s0
    if s = [] then none
    else
      match findChar '[' s with
      | some bracket =>
        let base := trim (s.take bracket)
        let sizeStr := trimEndMatchesChar ']' (s.drop (bracket + 1))
        match rustParseUsize sizeStr with
        | none => none
        | some n => (CType.parseGo reg fuel base).map (fun t => .Array t n)
      | none =>
        if endsWithChar '*' s then
          let base := trim s.dropLast
          if base = "void".toList ∨ base = [] then some (.Pointer none)
          else (CType.parseGo reg fuel base).map (fun t => .Pointer (some t))
        else
          match lookupA s primitives with
          | some t => some t
          | none =>
            match stripPre "struct ".toList s with
            | some n => some (.Struct (trim n))
            | none =>
              match stripPre "union ".toList s with
              | some n => some (.Union (trim n))
              | none =>
                match stripPre "enum ".toList s with
                | some n => some (.Enum (trim n))
                | none =>
                  if reg.has_struct s then some (.Struct s)
                  else if reg.has_enum s then some (.Enum s)
                  else
                    match reg.get_typedef s with
                    | some ali => some ali
                    | none =>
                      if lpHeuristic s then some (.Pointer none)
                      else some (.Struct s)

/-- Rust `CType::parse` (`types.rs`). -/
def CType.parse (reg : Registry) (s : Str) : Option CType :=
  CType.parseGo reg (s.length + 1) s

/-! Section: Declaration parser (`parser.rs`)

Every function of `parser.rs` that returns `Result` only ever constructs
`Ok` (no `Err` appears anywhere in the file), so helpers are modelled as
total functions; the `Option` layer on a helper models the Rust
slice-bounds panics it can reach (`none` = panic). -/

/-- Comma split respecting `[...]` depth, used by `expand_compact_fields`
(`parser.rs`): pieces are trimmed at each top-level comma; the final piece
is appended only when non-blank. -/
def splitCommaBrk (s : Str) : List Str :=
  let st := s.foldl
    (fun (st : List Str × Str × Int) c =>
      let (parts, cur, d) := st
      if c = '[' then (parts, cur ++ [c], d + 1)
      else if c = ']' then (parts, cur ++ [c], d - 1)
      else if c = ',' && d = 0 then (parts ++ [trim cur], [], d)
      else (parts, cur ++ [c], d))
    ([], [], 0)
  if trim st.2.1 ≠ [] then st.1 ++ [trim st.2.1] else st.1

/-- Net parenthesis balance of a statement (`expand_compact_fields`). -/
def parenBalance (s : Str) : Int :=
  s.foldl (fun d c => if c = '(' then d + 1 else if c = ')' then d - 1 else d) 0

/-- Rust `expand_compact_fields` (`parser.rs`): expansion of one `;`-statement. -/
def expandStatement (statement : Str) : List Str :=
  let statement := trim statement
  if statement = [] then []
  else if !containsChar ',' statement then [statement]
  else if parenBalance statement ≠ 0 then [statement]
  else
    let parts := splitCommaBrk statement
    if parts.length ≤ 1 then [statement]
    else
      let first := (parts.head?).getD []
      let tokens := splitWs first
      if tokens = [] then [statement]
      else
        let lastTok := (tokens.getLast?).getD []
        let nameWithPtr := trimStartMatchesChar '*' lastTok
        let ptrMarks := lastTok.takeWhile (· = '*')
        let (nm, arraySuffx) :=
          match findChar '[' nameWithPtr with
          | some bp => (nameWithPtr.take bp, nameWithPtr.drop bp)
          | none => (nameWithPtr, [])
        let base_type :=
          if tokens.length > 1 then joinSep " ".toList tokens.dropLast
          else "int".toList
        let firstField := base_type ++ [' '] ++ ptrMarks ++ nm ++ arraySuffx
        let restFields := (parts.drop 1).filterMap fun part =>
          let part := trim part
          if part = [] then none
          else
            let ptr := part.takeWhile (· = '*')
            let rest := trimStartMatchesChar '*' part
            let (fieldName, arrSuffx) :=
              match findChar '[' rest with
              | some bp => (rest.take bp, rest.drop bp)
              | none => (rest, [])
            some (base_type ++ [' '] ++ ptr ++ fieldName ++ arrSuffx)
        firstField :: restFields

/-- Rust `expand_compact_fields` (`parser.rs`). -/
def expand_compact_fields (body : Str) : Str :=
  joinSep "; ".toList (((splitChar ';' body).map expandStatement).flatten)

/-- Rust `split_type_and_name` (`parser.rs`). -/
def split_type_and_name (decl : Str) : Option (Str × Str) :=
  let decl := trim decl
  if decl = [] then none
  else
    let tokens := splitWs decl
    if tokens = [] then none
    else
      let lastTok := (tokens.getLast?).getD []
      let nm := trimStartMatchesChar '*' lastTok
      if nm = [] then none
      else
        let typeParts := (tokens.dropLast).map id ++
          (let asterisks := lastTok.takeWhile (· = '*')
           if asterisks ≠ [] then [asterisks] else [])
        let type_str := trim (replaceStr "* ".toList "*".toList
          (replaceStr " *".toList "*".toList (joinSep " ".toList typeParts)))
        if type_str = [] then some (nm, "int".toList)
        else some (nm, type_str)

/-- The array-dimension scan of `parse_field_decl` (`parser.rs`): reads
each `[n]` group, keeping only parseable sizes; fuel `remaining.length + 1`
suffices (every step drops at least two characters). -/
def collectDims : Nat → Str → List Nat
  | 0, _ => []
  | fuel + 1, remaining =>
    match findChar '[' remaining with
    | none => []
    | some st =>
      match findChar ']' (remaining.drop st) with
      | none => []
      | some en =>
        let sizeStr := (remaining.drop (st + 1)).take (en - 1)
        let rest := remaining.drop (st + en + 1)
        match rustParseUsize (trim sizeStr) with
        | some n => n :: collectDims fuel rest
        | none => collectDims fuel rest

/-- Rust `parse_field_decl` (`parser.rs`). -/
def parse_field_decl (reg : Registry) (line : Str) : Option (Str × CType) :=
  let line := trim line
  if line = [] then none
  else
    match findChar '[' line with
    | some fb =>
      let beforeBracket := trim (line.take fb)
      let dims := collectDims (line.length + 1) (line.drop fb)
      if dims = [] then none
      else
        match split_type_and_name beforeBracket with
        | none => none
        | some (nm, type_str) =>
          match CType.parse reg type_str with
          | none => none
          | some base =>
            some (nm, dims.reverse.foldl (fun t d => CType.Array t d) base)
    | none =>
      match split_type_and_name line with
      | none => none
      | some (nm, type_str) =>
        (CType.parse reg type_str).map (fun t => (nm, t))

/-- Accumulator state of `parse_struct_body` (`parser.rs`): fields so far,
running offset cursor, running maximum alignment. -/
structure SBState where
  fields : List CField
  offset : Nat
  max_align : Nat

/-- One field line of `parse_struct_body` (`parser.rs`): align the cursor
(structs only, positive alignment only), place the field, advance the
cursor by the field size (structs only), track the maximum alignment. -/
def sbStep (reg : Registry) (is_union : Bool) (st : SBState) (line : Str) : SBState :=
  let line := trim line
  if line = [] then st
  else
    match parse_field_decl reg line with
    | none => st
    | some (fname, ctype) =>
      let size := ctype.size reg
      let algn := ctype.align reg
      let offset :=
        if !is_union && algn > 0 then (st.offset + algn - 1) / algn * algn
        else st.offset
      { fields := st.fields ++ [⟨fname, ctype, if is_union then 0 else offset, none⟩],
        offset := if is_union then st.offset else offset + size,
        max_align := max st.max_align algn }

/-- Rust `parse_struct_body` (`parser.rs`).  The Rust function returns
`Result<StructDef, String>` but every return path is `Ok`, so it is
modelled as the plain value. -/
def parse_struct_body (reg : Registry) (nm body : Str) (is_union : Bool) : StructDef :=
  let expanded := expand_compact_fields body
  let st := (splitChar ';' expanded).foldl (sbStep reg is_union) ⟨[], 0, 1⟩
  let size :=
    if is_union then (st.fields.map (fun f => f.ctype.size reg)).foldl max 0
    else (st.offset + st.max_align - 1) / st.max_align * st.max_align
  ⟨nm, st.fields, size, st.max_align, is_union, false⟩

/-- The entry fold of `parse_enum_values` (`parser.rs`): explicit
`name = value` entries (decimal or `0x` hex, with the running counter as
fallback for unparseable values, mirroring `unwrap_or(current_value)`),
otherwise the running counter.  The counter `current_value` is a Rust
`i64`, so its `+ 1` wraps in two's complement (release-build semantics;
an overflow-checked build would abort at `i64::MAX + 1` instead). -/
def enumGo : List Str → Int → List (Str × Int) → List (Str × Int)
  | [], _, vs => vs
  | item :: rest, cur, vs =>
    let item := trim item
    if item = [] then enumGo rest cur vs
    else
      match findChar '=' item with
      | some eqp =>
        let nm := trim (item.take eqp)
        let valStr := trim (item.drop (eqp + 1))
        let v :=
          if isPre "0x".toList valStr || isPre "0X".toList valStr then
            (rustParseHexI64 (valStr.drop 2)).getD cur
          else (rustParseI64 valStr).getD cur
        enumGo rest (wrapS 64 (v + 1)) (insertA nm v vs)
      | none => enumGo rest (wrapS 64 (cur + 1)) (insertA item cur vs)

/-- Rust `parse_enum_values` (`parser.rs`). -/
def parse_enum_values (body : Str) : List (Str × Int) :=
  enumGo (splitChar ',' body) 0 []

/-- Brace balance of one line (`parse_typedef_struct` / `parse_typedef_enum`
accumulation loops in `parser.rs`). -/
def braceDelta (line : Str) : Int :=
  line.foldl (fun d c => if c = '{' then d + 1 else if c = '}' then d - 1 else d) 0

/-- The shared line-accumulation loop of `parse_typedef_struct` and
`parse_typedef_enum` (`parser.rs`): strip comments, track the brace
balance, accumulate lines (newline-terminated), stop once the balance is
zero and a `{` has been seen; the alias name is what follows the last `}`
of the stopping line.  Returns `(body, name, remaining lines)`; on
exhaustion the name is empty and no lines remain. -/
def accumBody : Int → Str → List Str → Str × Str × List Str
  | _, acc, [] => (acc, [], [])
  | cnt, acc, l :: rest =>
    let line := trim (beforeFirst "//".toList l)
    let cnt := cnt + braceDelta line
    let acc := acc ++ line ++ ['\n']
    if cnt = 0 && containsChar '{' acc then
      let nm :=
        match rfindChar '}' line with
        | some e => trim (trimEndMatchesChar ';' (trim (line.drop (e + 1))))
        | none => []
      (acc, nm, rest)
    else accumBody cnt acc rest

/-- Rust `parse_typedef_struct` (`parser.rs`).  Takes the raw current line and
the raw following lines; returns the parsed definition (if any) and the
lines left for the outer `parse_cdef` loop; `none` models the slice panic
`&first[body_start + 1..body_end]` with `body_start + 1 > body_end`
(reachable when the only `}` of a single-line form precedes the `{`). -/
def parse_typedef_struct (reg : Registry) (first0 : Str) (rest : List Str)
    (is_union : Bool) : Option (Option StructDef × List Str) :=
  let first := trim first0
  if containsChar '{' first && containsChar '}' first then
    let bs := (findChar '{' first).getD 0
    let be := (rfindChar '}' first).getD 0
    match sliceChk first (bs + 1) be with
    | none => none
    | some body =>
      let ali := trim (trimEndMatchesChar ';' (trim (first.drop (be + 1))))
      some (some (parse_struct_body reg ali body is_union), rest)
  else
    let (body, nm, leftover) := accumBody 0 [] (first0 :: rest)
    match findChar '{' body, rfindChar '}' body with
    | some si, some ei =>
      (sliceChk body (si + 1) ei).map fun inner =>
        (some (parse_struct_body reg nm inner is_union), leftover)
    | _, _ => some (none, leftover)

/-- Rust `parse_struct` (`parser.rs`): bare `struct NAME { ... };` /
`union NAME { ... };`. -/
def parse_struct (reg : Registry) (first0 : Str) (rest : List Str)
    (is_union : Bool) : Option (Option StructDef × List Str) :=
  let first := trim first0
  let pre := if is_union then "union ".toList else "struct ".toList
  let afterPre := (stripPre pre first).getD []
  let nm := trim (afterPre.takeWhile (fun c => !(c = '{' || c = ' ')))
  if containsChar '{' first && containsChar '}' first then
    let bs := (findChar '{' first).getD 0
    let be := (rfindChar '}' first).getD 0
    match sliceChk first (bs + 1) be with
    | none => none
    | some body => some (some (parse_struct_body reg nm body is_union), rest)
  else
    match parse_typedef_struct reg first0 rest is_union with
    | none => none
    | some (some d, leftover) =>
      some (some (if d.name = [] && nm ≠ [] then { d with name := nm } else d), leftover)
    | some (none, leftover) => some (none, leftover)

/-- Rust `parse_typedef_enum` (`parser.rs`): accumulate the balanced-brace body,
then parse the comma-separated entries; `none` models the
`&body[start_idx + 1..end_idx]` slice panic. -/
def parse_typedef_enum (first0 : Str) (rest : List Str) :
    Option (Option Str × Option (List (Str × Int)) × List Str) :=
  let (body, nm, leftover) := accumBody 0 [] (first0 :: rest)
  match findChar '{' body, rfindChar '}' body with
  | some si, some ei =>
    (sliceChk body (si + 1) ei).map fun inner =>
      (some nm, some (parse_enum_values inner), leftover)
  | _, _ => some (none, none, leftover)

/-- Rust `parse_func_ptr_typedef` (`parser.rs`): `typedef Ret (Conv *Name)(Args);`.
Outer `none` models the `&content[args_start + 1..args_end]` slice panic;
`some none` models each `?` early return of the Rust function. -/
def parse_func_ptr_typedef (reg : Registry) (line : Str) : Option (Option (Str × CType)) :=
  match stripPre "typedef ".toList line with
  | none => some none
  | some content0 =>
    let content := trim (trimEndMatchesChar ';' content0)
    match findChar '(' content with
    | none => some none
    | some ps =>
      match findChar ')' (content.drop ps) with
      | none => some none
      | some peRel =>
        let pe := peRel + ps
        let inner := (content.take pe).drop (ps + 1)
        if !containsChar '*' inner then some none
        else
          match (splitWs inner).getLast? with
          | none => some none
          | some lastTok =>
            let nm := trimStartMatchesChar '*' lastTok
            let retStr := trim (content.take ps)
            match CType.parse reg retStr with
            | none => some none
            | some retType =>
              match findChar '(' (content.drop pe) with
              | none => some none
              | some asRel =>
                let argsStart := asRel + pe
                match rfindChar ')' content with
                | none => some none
                | some argsEnd =>
                  match sliceChk content (argsStart + 1) argsEnd with
                  | none => none
                  | some argsStr =>
                    let args :=
                      if trim argsStr = [] || trim argsStr = "void".toList then []
                      else
                        (splitChar ',' argsStr).foldl
                          (fun acc arg =>
                            let arg := trim arg
                            if arg = [] then acc
                            else
                              match CType.parse reg arg with
                              | some t => acc ++ [t]
                              | none =>
                                match rfindChar ' ' arg with
                                | some idx =>
                                  let sub := trim (arg.take idx)
                                  match CType.parse reg sub with
                                  | some t => acc ++ [t]
                                  | none => acc ++ [CType.Void]
                                | none => acc)
                          []
                    let iu := asciiUpper inner
                    let conv :=
                      if containsStr "WINAPI".toList iu || containsStr "STDCALL".toList iu
                          || containsStr "CALLBACK".toList iu
                          || containsStr "APIENTRY".toList iu
                          || containsStr "PASCAL".toList iu then
                        CallConv.Stdcall
                      else if containsStr "FASTCALL".toList iu then CallConv.Fastcall
                      else CallConv.C
                    some (some (nm,
                      CType.Pointer (some (CType.Function retType args false conv))))

/-- Rust `parse_simple_typedef` (`parser.rs`): the function-pointer form is
tried first whenever the line has both parentheses; otherwise the plain
`typedef T Name;` path. -/
def parse_simple_typedef (reg : Registry) (line : Str) : Option (Option (Str × CType)) :=
  let viaFuncPtr :=
    if containsChar '(' line && containsChar ')' line then
      parse_func_ptr_typedef reg line
    else some none
  match viaFuncPtr with
  | none => none
  | some (some nv) => some (some nv)
  | some none =>
    match stripPre "typedef ".toList line with
    | none => some none
    | some content0 =>
      let content := trim (trimEndMatchesChar ';' content0)
      let parts := splitWs content
      if parts = [] then some none
      else
        let lastTok := (parts.getLast?).getD []
        let nm := trimStartMatchesChar '*' lastTok
        let nmClean := trimMatchesChar '*' nm
        if nmClean = [] then some none
        else
          let type_str := joinSep " ".toList parts.dropLast
          let type_str := if isPre "*".toList lastTok then type_str ++ ['*'] else type_str
          match CType.parse reg type_str with
          | none => some none
          | some t => some (some (nmClean, t))

/-- Top-level comma split of an argument list, respecting parenthesis
depth (`parse_func_decl` in `parser.rs`). -/
def splitTopComma (s : Str) : List Str :=
  let st := s.foldl
    (fun (st : List Str × Str × Int) c =>
      let (parts, cur, d) := st
      if c = '(' then (parts, cur ++ [c], d + 1)
      else if c = ')' then (parts, cur ++ [c], d - 1)
      else if c = ',' && d = 0 then (parts ++ [trim cur], [], d)
      else (parts, cur ++ [c], d))
    ([], [], 0)
  if trim st.2.1 ≠ [] then st.1 ++ [trim st.2.1] else st.1

/-- Rust `parse_func_decl` (`parser.rs`).  `none` models the
`&line[paren_start + 1..paren_end]` slice panic (reachable when the last
`)` precedes the first `(`); `some none` models the `?` early returns. -/
def parse_func_decl (reg : Registry) (line0 : Str) : Option (Option FuncSig) :=
  let line := trim (trimEndMatchesChar ';' (trim line0))
  match findChar '(' line with
  | none => some none
  | some ps =>
    match rfindChar ')' line with
    | none => some none
    | some pe =>
      let beforeParen := trim (line.take ps)
      let (conv, cleaned) :=
        if containsStr "__stdcall".toList beforeParen then
          (CallConv.Stdcall, replaceStr "__stdcall".toList [] beforeParen)
        else if containsStr "WINAPI".toList beforeParen then
          (CallConv.Stdcall, replaceStr "WINAPI".toList [] beforeParen)
        else if containsStr "CALLBACK".toList beforeParen then
          (CallConv.Stdcall, replaceStr "CALLBACK".toList [] beforeParen)
        else if containsStr "APIENTRY".toList beforeParen then
          (CallConv.Stdcall, replaceStr "APIENTRY".toList [] beforeParen)
        else if containsStr "PASCAL".toList beforeParen then
          (CallConv.Stdcall, replaceStr "PASCAL".toList [] beforeParen)
        else if containsStr "__fastcall".toList beforeParen then
          (CallConv.Fastcall, replaceStr "__fastcall".toList [] beforeParen)
        else (CallConv.C, beforeParen)
      let parts := splitWs cleaned
      if parts = [] then some none
      else
        let lastTok := (parts.getLast?).getD []
        let nm := trimStartMatchesChar '*' lastTok
        let retStr := joinSep " ".toList parts.dropLast
        let retStr := if isPre "*".toList lastTok then retStr ++ ['*'] else retStr
        let retType := (CType.parse reg retStr).getD CType.Int
        match sliceChk line (ps + 1) pe with
        | none => none
        | some argsStr =>
          let rawArgs := splitTopComma argsStr
          let (args, variadic) :=
            rawArgs.foldl
              (fun (st : List (Str × CType) × Bool) arg =>
                let (args, variadic) := st
                let arg := trim arg
                if arg = [] || arg = "void".toList then (args, variadic)
                else if arg = "...".toList then (args, true)
                else
                  let aparts := splitWs arg
                  if aparts = [] then (args, variadic)
                  else
                    let alast := (aparts.getLast?).getD []
                    let argName := trimStartMatchesChar '*' alast
                    let typeStr :=
                      if aparts.length > 1 then joinSep " ".toList aparts.dropLast
                      else (aparts.head?).getD []
                    let typeStr := if isPre "*".toList alast then typeStr ++ ['*'] else typeStr
                    match CType.parse reg typeStr with
                    | some t => (args ++ [(argName, t)], variadic)
                    | none => (args, variadic))
              ([], false)
          some (some ⟨nm, retType, args, variadic, conv⟩)

/-- The multi-line accumulation of the function-declaration branch of
`parse_cdef` (`parser.rs`): append trimmed raw lines (space-separated)
until one contains `;`.  The Rust loop breaks with `i` still at the `;`
line, so that line is left for the outer loop to reprocess. -/
def funcScan (decl : Str) : List Str → Str × List Str
  | [] => (decl, [])
  | l :: rest =>
    let nl := trim l
    let decl := decl ++ [' '] ++ nl
    if containsChar ';' nl then (decl, l :: rest)
    else funcScan decl rest

/-- The line loop of `parse_cdef` (`parser.rs`), fuel-indexed: each
iteration consumes at least one line (every helper consumes at least the
current line), so fuel `lines.length + 1` is never exhausted; `none`
models a panic in a helper. -/
def cdefGo (reg : Registry) : Nat → List Str → Option Registry
  | 0, _ => some reg
  | _ + 1, [] => some reg
  | fuel + 1, l :: rest =>
    let line := trim (beforeFirst "//".toList l)
    if line = [] then cdefGo reg fuel rest
    else if isPre "#".toList line then cdefGo reg fuel rest
    else if (isPre "typedef struct".toList line || isPre "typedef union".toList line)
        && containsChar '{' line then
      let is_union := isPre "typedef union".toList line
      match parse_typedef_struct reg l rest is_union with
      | none => none
      | some (dOpt, leftover) =>
        let reg := match dOpt with
          | some d => reg.add_struct d
          | none => reg
        cdefGo reg fuel leftover
    else if isPre "typedef enum".toList line then
      match parse_typedef_enum l rest with
      | none => none
      | some (nOpt, vOpt, leftover) =>
        let reg := match nOpt, vOpt with
          | some n, some v => reg.add_enum n v
          | _, _ => reg
        cdefGo reg fuel leftover
    else if isPre "typedef ".toList line then
      match parse_simple_typedef reg line with
      | none => none
      | some r =>
        let reg := match r with
          | some (n, t) => reg.add_typedef n t
          | none => reg
        cdefGo reg fuel rest
    else if !isPre "struct".toList line && !isPre "union".toList line
        && !isPre "enum".toList line && !isPre "typedef".toList line
        && containsChar '(' line then
      let (decl, leftover) :=
        if containsChar ';' line then (line, rest) else funcScan line rest
      match parse_func_decl reg decl with
      | none => none
      | some sigOpt =>
        let reg := match sigOpt with
          | some sig => reg.add_func sig
          | none => reg
        cdefGo reg fuel leftover
    else if isPre "struct ".toList line || isPre "union ".toList line then
      let is_union := isPre "union ".toList line
      match parse_struct reg l rest is_union with
      | none => none
      | some (dOpt, leftover) =>
        let reg := match dOpt with
          | some d => reg.add_struct d
          | none => reg
        cdefGo reg fuel leftover
    else cdefGo reg fuel rest

/-- Rust `parse_cdef` (`parser.rs`).  The Rust signature is
`Result<(), String>` mutating the global registry; modelled as
registry-in/registry-out.  `none` models a panic; every non-panicking run
returns `Ok` (no `Err` is ever constructed in `parser.rs`). -/
def parse_cdef (reg : Registry) (cdef : Str) : Option (Except Str Registry) :=
  let lines := rustLines cdef
  (cdefGo reg (lines.length + 1) lines).map Except.ok

/-! Section: Memory model (`memory.rs`)

`CBox` is a raw region: address, stored byte size, type tag, owned flag.
Addresses are `Nat`; the allocator's returned address is a parameter of
`CBox.new`.  `AllocEvt` records the `Layout` (size, align) passed to
`alloc`/`dealloc`. -/

structure AllocEvt where
  size : Nat
  align : Nat
deriving DecidableEq

structure CBox where
  ptr : Nat
  size : Nat
  ctype : CType
  owned : Bool

/-- Rust `CBox::new` (`memory.rs`): size `ctype.size().max(1)`, alignment
`ctype.align().max(1)`, allocates with that layout, owned; the stored
`size` field is the (maxed) allocation size. -/
def CBox.new (reg : Registry) (ctype : CType) (addr : Nat) : CBox × AllocEvt :=
  let size := max (ctype.size reg) 1
  let algn := max (ctype.align reg) 1
  (⟨addr, size, ctype, true⟩, ⟨size, algn⟩)

/-- Rust `CBox::from_raw` (`memory.rs`): wraps an existing address; the stored
size is `ctype.size()` (not maxed), ownership as given. -/
def CBox.from_raw (reg : Registry) (p : Nat) (ctype : CType) (owned : Bool) : CBox :=
  ⟨p, ctype.size reg, ctype, owned⟩

/-- Rust `Drop for CBox` (`memory.rs`): deallocates only when owned and
non-null, with size `self.size.max(1)` and alignment
`self.ctype.align().max(1)` — the alignment is recomputed from the type
tag against the registry **at drop time**. -/
def CBox.dropEvt (reg : Registry) (b : CBox) : Option AllocEvt :=
  if b.owned ∧ b.ptr ≠ 0 then some ⟨max b.size 1, max (b.ctype.align reg) 1⟩
  else none

/-! Section: Call engine (`call.rs`)

Host (Lua) values, the argument-count validation and argument-preparation
order of the two generic invocation paths.  `f64` payloads are rationals.
Exotic host variants (functions, threads, buffers, …) all fall into the
same wildcard arms as tables everywhere the modelled code matches on a
value, so `table` stands for all of them. -/

inductive UDKind where
  | cbox (addr : Nat)
  | callback (addr : Nat)
  | other
deriving DecidableEq

inductive HostVal where
  | nil
  | boolean (b : Bool)
  | integer (i : Int)
  | number (q : ℚ)
  | str (s : Str)
  | lightUserData (addr : Nat)
  | userData (u : UDKind)
  | table

/-- The named error returns of `invoke_cached` / `invoke_impl` /
`prepare_arg` (`call.rs`); the Rust code formats them as strings
("Bad argument count: expected .., got ..", "Null byte in string"). -/
inductive CallErr where
  | badCount (expected provided : Nat)
  | badCountVariadic (expected provided : Nat)
  | nullByteInString
deriving DecidableEq

/-- The observable outcome of a generic-path invocation that reached
`ffi_call`: native code ran, with the listed prepared argument slots. -/
inductive CallOutcome where
  | nativeCalled (slots : List (CType × HostVal))

/-- Rust `prepare_arg` (`call.rs`).  The only fallible case is a string
marshalled into a `char*` slot containing an interior NUL
(`CString::new` fails).  The numeric bit-conversions the function performs
are not needed by any claim; a prepared slot is recorded as the pair
(declared C type, host value). -/
def prepare_arg (ctype : CType) (v : HostVal) : Except CallErr (CType × HostVal) :=
  match ctype with
  | .Pointer (some .Char) =>
    match v with
    | .str s => if containsChar '\x00' s then .error .nullByteInString else .ok (ctype, v)
    | _ => .ok (ctype, v)
  | _ => .ok (ctype, v)

/-- Sequential argument preparation with short-circuit on error
(the `?` inside the argument loops of `call.rs`). -/
def prepArgs : List (CType × HostVal) → Except CallErr (List (CType × HostVal))
  | [] => .ok []
  | (t, v) :: rest => do
    let s ← prepare_arg t v
    let ss ← prepArgs rest
    .ok (s :: ss)

/-- Rust `invoke_cached` (`call.rs`): the generic path behind
`CachedFunction`'s call metamethod.  Validation: only the non-variadic
exact-count check (`if !cached.sig.variadic && provided != expected`);
the argument loop prepares the arguments paired with the declared types,
for indices below `expected` only (variadic extras are silently dropped),
then `ffi_call` runs. -/
def invoke_cached (sig : FuncSig) (args : List HostVal) : Except CallErr CallOutcome :=
  let expected := sig.args.length
  let provided := args.length
  if !sig.variadic && provided ≠ expected then .error (.badCount expected provided)
  else do
    let slots ← prepArgs ((sig.args.map (·.2)).zip (args.take expected))
    .ok (.nativeCalled slots)

/-- The variadic-argument `CType` inference of `invoke_impl` (`call.rs`):
integer→`Int`, number→`Double`, string→`char*`, boolean→`Int`,
pointer-like→opaque pointer, anything else→`Void` (skipped). -/
def inferVariadicCType : HostVal → CType
  | .integer _ => .Int
  | .number _ => .Double
  | .str _ => .Pointer (some .Char)
  | .boolean _ => .Int
  | .lightUserData _ => .Pointer none
  | .userData _ => .Pointer none
  | _ => .Void

/-- Rust `invoke_impl` (`call.rs`): the generic path behind function-pointer
calls (`ffi_call_ptr` / `invoke`).  Validation: exact count for
non-variadic, at-least for variadic; then fixed arguments are prepared
against the declared types and extra variadic arguments against the
inferred type (skipping `Void`), and `ffi_call` runs. -/
def invoke_impl (argTypes : List CType) (variadic : Bool)
    (args : List HostVal) : Except CallErr CallOutcome :=
  let provided := args.length
  let expected := argTypes.length
  if !variadic && provided ≠ expected then .error (.badCount expected provided)
  else if variadic && provided < expected then .error (.badCountVariadic expected provided)
  else do
    let fixedPairs := argTypes.zip (args.take expected)
    let extraPairs := (args.drop expected).filterMap fun v =>
      match inferVariadicCType v with
      | .Void => none
      | t => some (t, v)
    let slots ← prepArgs (fixedPairs ++ extraPairs)
    .ok (.nativeCalled slots)

/-! Section: Callback engine (`callback.rs`) -/

/-- Truncation toward zero of a rational (`f64 as iN` truncates). -/
def ratTruncZ (q : ℚ) : Int := if 0 ≤ q then ⌊q⌋ else ⌈q⌉

/-- Rust float→integer `as` cast: truncate, then saturate to the range. -/
def rustTruncSat (lo hi : Int) (q : ℚ) : Int := min hi (max lo (ratTruncZ q))

/-- Rust `lua_to_i64` (`callback.rs`). -/
def lua_to_i64 : HostVal → Int
  | .integer i => i
  | .number n => rustTruncSat (-(2 ^ 63)) (2 ^ 63 - 1) n
  | .boolean b => if b then 1 else 0
  | .nil => 0
  | _ => 0

/-- Rust `lua_to_u64` (`callback.rs`). -/
def lua_to_u64 : HostVal → Int
  | .integer i => wrapU 64 i
  | .number n => rustTruncSat 0 (2 ^ 64 - 1) n
  | .boolean b => if b then 1 else 0
  | .nil => 0
  | _ => 0

/-- Rust `lua_to_f64` (`callback.rs`). -/
def lua_to_f64 : HostVal → ℚ
  | .number n => n
  | .integer i => (i : ℚ)
  | .boolean b => if b then 1 else 0
  | .nil => 0
  | _ => 0

/-- What `lua_to_c_result` writes into the native return slot: the write
width (in bytes) is the constructor; the payload is the stored value. -/
inductive CWrite where
  | wnone
  | w8 (v : Int)
  | w16 (v : Int)
  | w32 (v : Int)
  | w64 (v : Int)
  | wf32 (q : ℚ)
  | wf64 (q : ℚ)
  | wptr (p : Nat)
deriving DecidableEq

/-- Rust `lua_to_c_result` (`callback.rs`): type-directed write of a host value
into the native return slot.  `env` gives the buffer address of a host
string (the `s.as_bytes().as_ptr()` case). -/
def lua_to_c_result (env : Str → Nat) (ctype : CType) (val : HostVal) : CWrite :=
  match ctype with
  | .Void => .wnone
  | .Bool =>
    let b := match val with
      | .boolean b => b
      | .nil => false
      | .integer i => i != 0
      | .number n => n != 0
      | _ => true
    .w8 (if b then 1 else 0)
  | .Char | .Int8 => .w8 (wrapS 8 (lua_to_i64 val))
  | .UChar | .UInt8 => .w8 (wrapU 8 (lua_to_i64 val))
  | .Short | .Int16 => .w16 (wrapS 16 (lua_to_i64 val))
  | .UShort | .UInt16 | .WChar => .w16 (wrapU 16 (lua_to_i64 val))
  | .Int | .Int32 | .Enum _ | .HRESULT => .w32 (wrapS 32 (lua_to_i64 val))
  | .UInt | .UInt32 => .w32 (wrapU 32 (lua_to_i64 val))
  | .Long | .LongLong | .Int64 => .w64 (lua_to_i64 val)
  | .ULong | .ULongLong | .UInt64 => .w64 (lua_to_u64 val)
  | .Float => .wf32 (lua_to_f64 val)
  | .Double => .wf64 (lua_to_f64 val)
  | .Pointer _ | .Struct _ | .Union _ | .Array _ _ | .Function _ _ _ _ | .GUID =>
    let p : Nat := match val with
      | .lightUserData a => a
      | .integer i => (wrapU 64 i).toNat
      | .number n => (wrapU 64 (rustTruncSat (-(2 ^ 63)) (2 ^ 63 - 1) n)).toNat
      | .nil => 0
      | .boolean false => 0
      | .boolean true => 1
      | .userData (.cbox a) => a
      | .userData (.callback a) => a
      | .userData .other => 0
      | .str s => env s
      | _ => 0
    .wptr p

/-- The diagnostics `callback_trampoline` can emit (`eprintln!` lines in
`callback.rs`). -/
inductive CbReport where
  | luaFuncLookupFailed
  | luaFuncErrored
deriving DecidableEq

/-- The observable effect of one trampoline invocation: what was written
into the native return slot (`wnone` = nothing) and what was reported. -/
structure TrampOut where
  write : CWrite
  reported : List CbReport
deriving DecidableEq

/-- Rust `callback_trampoline` (`callback.rs`).  The registry lookup of the
retained script function (`getFunc`), the already-converted argument list
(`luaArgs`, the result of the `c_arg_to_lua` loop, not needed by any
claim), and the script invocation (`call`) are parameters.  On a lookup
failure the handler reports and returns without writing; on a successful
call the first returned value (or nil) is written; on a script error the
handler reports and writes `lua_to_c_result(ret, Integer(0))`.  The
return type has no error channel: nothing propagates to the native
caller. -/
def callback_trampoline (env : Str → Nat) (retType : CType)
    (getFunc : Except Str Unit)
    (call : List HostVal → Except Str (List HostVal))
    (luaArgs : List HostVal) : TrampOut :=
  match getFunc with
  | .error _ => ⟨.wnone, [.luaFuncLookupFailed]⟩
  | .ok () =>
    match call luaArgs with
    | .ok values => ⟨lua_to_c_result env retType (values.headD .nil), []⟩
    | .error _ => ⟨lua_to_c_result env retType (.integer 0), [.luaFuncErrored]⟩

/-- Byte width of the native return slot for a declared return type, per
`ctype_to_ffi_type` in `callback.rs` (aggregates map to the pointer
type). -/
def retSlotWidth : CType → Nat
  | .Void => 0
  | .Bool | .Char | .Int8 | .UChar | .UInt8 => 1
  | .Short | .Int16 | .UShort | .UInt16 | .WChar => 2
  | .Int | .Int32 | .Enum _ | .HRESULT | .UInt | .UInt32 => 4
  | .Long | .LongLong | .Int64 | .ULong | .ULongLong | .UInt64 => 8
  | .Float => 4
  | .Double => 8
  | .Pointer _ | .Struct _ | .Union _ | .Array _ _ | .Function _ _ _ _ | .GUID => 8

/-- Byte width of a slot write. -/
def CWrite.width : CWrite → Nat
  | .wnone => 0
  | .w8 _ => 1
  | .w16 _ => 2
  | .w32 _ => 4
  | .w64 _ => 8
  | .wf32 _ => 4
  | .wf64 _ => 8
  | .wptr _ => 8

/-- A write is the zero/default value of its slot. -/
def CWrite.isZeroDefault : CWrite → Prop
  | .wnone => True
  | .w8 v | .w16 v | .w32 v | .w64 v => v = 0
  | .wf32 q | .wf64 q => q = 0
  | .wptr p => p = 0

/-! Section: Batch processor (`batch.rs`) -/

/-- The element loop of `ffi_batch` (`batch.rs`): for `i` in
`0..count`, `output[i] = f(input[i])`; returns the final output memory and
the function's return value `count`.  The pointer extraction and null
checks that precede the loop are claim-irrelevant and not modelled; memory
is a total map from element index to value. -/
def ffi_batch_loop {α : Type} (f : α → α) (input : Nat → α) (count : Nat)
    (output : Nat → α) : (Nat → α) × Nat :=
  ((List.range count).foldl (fun out i => Function.update out i (f (input i))) output, count)

/-! Section: Claim-support definitions -/

/-- An enum-body entry is well-formed: after trimming it is blank, has no
`=`, or its explicit value (decimal or `0x`/`0X` hex) parses as an `i64`.
This excludes only the entries where `parse_enum_values` falls back to
`unwrap_or(current_value)`. -/
def enumEntryOK (e : Str) : Bool :=
  let e := trim e
  e = [] ||
    match findChar '=' e with
    | none => true
    | some i =>
      let valStr := trim (e.drop (i + 1))
      if isPre "0x".toList valStr || isPre "0X".toList valStr then
        (rustParseHexI64 (valStr.drop 2)).isSome
      else (rustParseI64 valStr).isSome

/-- The enum-value accumulation as the claim words it, read with
unbounded integers (a second definition, for comparison with the source's
`parse_enum_values`): an entry with an explicit `= value` (decimal or 0x
hex) is registered with that value and the counter continues at
value + 1; an entry without one is registered with the previous entry's
value plus 1 — the running counter, 0 initially.  This reading is refuted
at the i64 boundary (see the C8 counterexample): the source's counter
wraps. -/
def enum_values_claimed : List Str → Int → List (Str × Int) → List (Str × Int)
  | [], _, vs => vs
  | item :: rest, next, vs =>
    let item := trim item
    if item = [] then enum_values_claimed rest next vs
    else
      match findChar '=' item with
      | some i =>
        let nm := trim (item.take i)
        let valStr := trim (item.drop (i + 1))
        let v := (if isPre "0x".toList valStr || isPre "0X".toList valStr then
                    rustParseHexI64 (valStr.drop 2)
                  else rustParseI64 valStr).getD 0
        enum_values_claimed rest (v + 1) (insertA nm v vs)
      | none => enum_values_claimed rest (next + 1) (insertA item next vs)

/-- The enum-value accumulation as the amended claim words it: as
`enum_values_claimed`, except that the `plus 1` of the running counter is
computed in wrapping 64-bit (i64) two's-complement arithmetic — identical
to the unbounded reading except when the previous value is `2^63 - 1`. -/
def enum_values_spec : List Str → Int → List (Str × Int) → List (Str × Int)
  | [], _, vs => vs
  | item :: rest, next, vs =>
    let item := trim item
    if item = [] then enum_values_spec rest next vs
    else
      match findChar '=' item with
      | some i =>
        let nm := trim (item.take i)
        let valStr := trim (item.drop (i + 1))
        let v := (if isPre "0x".toList valStr || isPre "0X".toList valStr then
                    rustParseHexI64 (valStr.drop 2)
                  else rustParseI64 valStr).getD 0
        enum_values_spec rest (wrapS 64 (v + 1)) (insertA nm v vs)
      | none => enum_values_spec rest (wrapS 64 (next + 1)) (insertA item next vs)

/-- The registry after a successful `cdef` call (unchanged on a panic, a
case none of the theorems using this definition hits on a success path). -/
def regAfter (reg : Registry) (s : Str) : Registry :=
  match parse_cdef reg s with
  | some (.ok r) => r
  | _ => reg

/-- The `Mix` declaration of the layout example. -/
def mixCdef : Str := "typedef struct { char a,b,c,d; int e; } Mix;".toList

/-- The claimed layout of `Mix`: `a@0,b@1,c@2,d@3,e@4`, size 8. -/
def mixDef : StructDef :=
  ⟨"Mix".toList,
   [⟨"a".toList, .Char, 0, none⟩, ⟨"b".toList, .Char, 1, none⟩,
    ⟨"c".toList, .Char, 2, none⟩, ⟨"d".toList, .Char, 3, none⟩,
    ⟨"e".toList, .Int, 4, none⟩],
   8, 4, false, false⟩

/-- The claimed layout of the body `char a; int b;`: `b@4` (3 bytes of
padding after `a`), total size 8. -/
def abDef : StructDef :=
  ⟨[], [⟨"a".toList, .Char, 0, none⟩, ⟨"b".toList, .Int, 4, none⟩], 8, 4, false, false⟩

/-- The signature registered for `int printf(const char *fmt, ...);`
(what `parse_func_decl` produces). -/
def printfSig : FuncSig :=
  ⟨"printf".toList, .Int, [("fmt".toList, .Pointer (some .Char))], true, .C⟩

/-- A cdef block whose second field declaration (`int b[xx];`) is
unparseable (non-numeric array dimension) while the rest of the block is
well-formed. -/
def skipCdef : Str :=
  ("typedef struct { int a; int b[xx]; int c; } S;\n" ++ "int foo(int x);").toList

/-- The layout registered for `S` from `skipCdef`: the malformed `b` field
is skipped, `a@0`, `c@4`, size 8. -/
def sDef : StructDef :=
  ⟨"S".toList, [⟨"a".toList, .Int, 0, none⟩, ⟨"c".toList, .Int, 4, none⟩], 8, 4, false, false⟩

/-- The signature registered for `int foo(int x);`. -/
def fooSig : FuncSig := ⟨"foo".toList, .Int, [("x".toList, .Int)], false, .C⟩

/-- First registration of `Foo` (size 1, alignment 1). -/
def fooCdef1 : Str := "typedef struct { char a; } Foo;".toList

/-- Re-registration of `Foo` with a different layout (size 8, alignment 8). -/
def fooCdef2 : Str := "typedef struct { double a; } Foo;".toList

/-! Section: Theorems -/

/-- C6: parsing `typedef struct { char a,b,c,d; int e; } Mix;` registers a
struct with field offsets `a@0,b@1,c@2,d@3,e@4` and total size 8, and the
struct body `char a; int b;` places `b` at offset 4 (3 bytes of padding
after `a`) with total size 8. -/
theorem cdef_mix_and_padding_layout :
    parse_cdef Registry.empty mixCdef = some (.ok (regAfter Registry.empty mixCdef)) ∧
    (regAfter Registry.empty mixCdef).get_struct "Mix".toList = some mixDef ∧
    parse_struct_body Registry.empty [] "char a; int b;".toList false = abDef :=
  ⟨rfl, rfl, rfl⟩

/-- C7: `int printf(const char *fmt, ...);` parses to a signature with
`variadic = true` and exactly one fixed parameter of pointer-to-char
type. -/
theorem parse_printf_variadic :
    parse_func_decl Registry.empty "int printf(const char *fmt, ...);".toList =
      some (some printfSig) :=
  rfl

/-- C10 (code bug): `parse_cdef` is not total-success — the declaration
line `typedef struct } {` reaches the slice
`&first[body_start + 1..body_end]` with `body_start + 1 > body_end` and
panics (modelled as `none`), instead of returning `Ok` or skipping the
fragment.  The skip-and-continue half of the claim does hold on non-
panicking input: in `skipCdef` the malformed field `int b[xx];` is dropped
while `S` (fields `a@0`, `c@4`) and `foo` are still registered. -/
theorem parse_cdef_panic_and_skip :
    parse_cdef Registry.empty "typedef struct \x7d \x7b".toList = none ∧
    parse_cdef Registry.empty skipCdef = some (.ok (regAfter Registry.empty skipCdef)) ∧
    (regAfter Registry.empty skipCdef).get_struct "S".toList = some sDef ∧
    (regAfter Registry.empty skipCdef).get_func "foo".toList = some fooSig :=
  ⟨rfl, rfl, rfl, rfl⟩

/-- C2 (code bug): an owned `CBox` is not always released with the same
alignment it was allocated with.  `Drop for CBox` recomputes the alignment
from the type tag against the **current** registry: allocate a
`struct Foo` while `Foo` has alignment 1, re-register `Foo` (an ordinary
`cdef`) with alignment 8, and the drop deallocates with layout (1, 8)
instead of the allocation layout (1, 1) — an allocator-contract
violation.  The borrowed half of the claim does hold: a `CBox` built by
`from_raw` with `owned = false` never deallocates. -/
theorem cbox_drop_layout_mismatch :
    (CBox.new (regAfter Registry.empty fooCdef1) (.Struct "Foo".toList) 4096).2 =
      ⟨1, 1⟩ ∧
    CBox.dropEvt (regAfter (regAfter Registry.empty fooCdef1) fooCdef2)
      (CBox.new (regAfter Registry.empty fooCdef1) (.Struct "Foo".toList) 4096).1 =
      some ⟨1, 8⟩ ∧
    (⟨1, 8⟩ : AllocEvt) ≠ ⟨1, 1⟩ ∧
    (∀ (reg reg' : Registry) (p : Nat) (t : CType),
      CBox.dropEvt reg' (CBox.from_raw reg p t false) = none) :=
  ⟨rfl, by decide, by decide, fun reg reg' p t => by simp [CBox.dropEvt, CBox.from_raw]⟩

/-- C3 (code bug): the generic path behind a declared native function
(`invoke_cached`) performs only the non-variadic exact-count check.  A
declared variadic function (here `printf`, one fixed `char*` parameter)
invoked with zero arguments is **not** rejected: `invoke_cached` proceeds
to `ffi_call` with an empty argument array (undefined behaviour), while
the function-pointer path `invoke_impl` rejects the same call with the
claimed at-least count error before any native code runs. -/
theorem invoke_cached_variadic_undercount_not_rejected :
    invoke_cached printfSig [] = .ok (.nativeCalled []) ∧
    invoke_impl [CType.Pointer (some .Char)] true [] = .error (.badCountVariadic 1 0) :=
  ⟨rfl, rfl⟩

/-- C4: when the wrapped script function raises, the callback trampoline
catches the error at the boundary (nothing propagates — the handler's
return type has no error channel), reports it, and writes
`lua_to_c_result(retType, Integer(0))` into the native return slot; that
write has the byte width of the declared return type's native slot and is
the zero/default value, so the native caller always receives a value of
the correct type and size. -/
theorem callback_trampoline_error_writes_default
    (env : Str → Nat) (retType : CType)
    (call : List HostVal → Except Str (List HostVal)) (luaArgs : List HostVal)
    (e : Str) (herr : call luaArgs = .error e) :
    callback_trampoline env retType (.ok ()) call luaArgs =
      ⟨lua_to_c_result env retType (.integer 0), [.luaFuncErrored]⟩ ∧
    (lua_to_c_result env retType (.integer 0)).width = retSlotWidth retType ∧
    (lua_to_c_result env retType (.integer 0)).isZeroDefault := by
  refine ⟨by simp [callback_trampoline, herr], ?_, ?_⟩ <;>
    cases retType <;>
      simp [lua_to_c_result, retSlotWidth, CWrite.width, CWrite.isZeroDefault,
        lua_to_i64, lua_to_u64, lua_to_f64, wrapS, wrapU] <;>
      decide

/-- Witness for `callback_trampoline_error_writes_default` at a concrete
failing script call with `int` return type. -/
theorem callback_trampoline_error_writes_default_witness :
    callback_trampoline (fun _ => 0) .Int (.ok ())
        (fun _ => .error "boom".toList) [] =
      ⟨lua_to_c_result (fun _ => 0) .Int (.integer 0), [.luaFuncErrored]⟩ ∧
    (lua_to_c_result (fun _ => 0) .Int (.integer 0)).width = retSlotWidth .Int ∧
    (lua_to_c_result (fun _ => 0) .Int (.integer 0)).isZeroDefault :=
  callback_trampoline_error_writes_default (fun _ => 0) .Int
    (fun _ => .error "boom".toList) [] "boom".toList rfl

/-- C5: for a (trimmed, qualifier-stripped) non-empty type name with no
array bracket, no trailing `*`, no primitive-keyword match, no
`struct `/`union `/`enum ` prefix and no registry match, `CType::parse`
returns an opaque pointer when the `LP*`/`P*` naming heuristic fires and a
forward-declared struct tag otherwise — never `none`. -/
theorem ctype_parse_fallback (reg : Registry) (s t : Str)
    (ht : stripTypeQualifiers s = t)
    (hne : t ≠ [])
    (hbr : findChar '[' t = none)
    (hptr : endsWithChar '*' t = false)
    (hprim : lookupA t primitives = none)
    (hstruct : stripPre "struct ".toList t = none)
    (hunion : stripPre "union ".toList t = none)
    (henum : stripPre "enum ".toList t = none)
    (hhs : reg.has_struct t = false)
    (hhe : reg.has_enum t = false)
    (htd : reg.get_typedef t = none) :
    CType.parse reg s =
      some (if lpHeuristic t then .Pointer none else .Struct t) := by
  unfold CType.parse
  rw [CType.parseGo, ht]
  simp only [hne, hbr, hptr, hprim, hhs, hhe, htd, if_false, ite_false,
    Bool.false_eq_true, reduceCtorEq]
  rw [hstruct, hunion, henum]
  cases h : lpHeuristic t <;> simp [h]

/-- Witness for `ctype_parse_fallback` at the unregistered name
`FOO_T` in the empty registry. -/
theorem ctype_parse_fallback_witness :
    CType.parse Registry.empty "FOO_T".toList =
      some (if lpHeuristic "FOO_T".toList then .Pointer none
            else .Struct "FOO_T".toList) :=
  ctype_parse_fallback Registry.empty "FOO_T".toList "FOO_T".toList
    rfl (by decide) rfl rfl rfl rfl rfl rfl rfl rfl rfl

/-- On well-formed entries (no `unwrap_or` fallback hit), the source's
enum fold agrees with the specification-worded fold. -/
theorem enumGo_eq_spec (items : List Str) :
    ∀ (cur : Int) (vs : List (Str × Int)),
      items.all enumEntryOK = true →
      enumGo items cur vs = enum_values_spec items cur vs := by
  induction items with
  | nil => intro cur vs _; rfl
  | cons item rest ih =>
    intro cur vs h
    simp only [List.all_cons, Bool.and_eq_true] at h
    obtain ⟨h1, h2⟩ := h
    unfold enumGo enum_values_spec
    by_cases he : trim item = []
    · simp only [he, if_true]
      exact ih cur vs h2
    · simp only [he, if_false]
      cases hfind : findChar '=' (trim item) with
      | none => exact ih (wrapS 64 (cur + 1)) _ h2
      | some i =>
        simp only [enumEntryOK, he, hfind, Bool.false_or] at h1
        by_cases hx : (isPre "0x".toList (trim ((trim item).drop (i + 1)))
            || isPre "0X".toList (trim ((trim item).drop (i + 1)))) = true
        · simp only [hx, if_true] at h1 ⊢
          obtain ⟨v, hv⟩ := Option.isSome_iff_exists.mp h1
          rw [hv]
          simp only [Option.getD_some]
          exact ih (wrapS 64 (v + 1)) _ h2
        · simp only [hx, if_false] at h1 ⊢
          obtain ⟨v, hv⟩ := Option.isSome_iff_exists.mp h1
          rw [hv]
          simp only [Option.getD_some]
          exact ih (wrapS 64 (v + 1)) _ h2

/-- C8 as amended: on every enum body whose entries are well-formed (each
entry is blank, valueless, or carries a parseable decimal/hex value),
`parse_enum_values` computes exactly the amended claim's fold: explicit
entries register their value and the counter continues at value + 1;
entries without a value register the running counter (previous value plus
one, 0 initially) — where the `plus 1` is wrapping i64 arithmetic, so
every registered value lies in the i64 range; the result is a
name→int64 map. -/
theorem parse_enum_values_matches_spec (body : Str)
    (hwf : (splitChar ',' body).all enumEntryOK = true) :
    parse_enum_values body = enum_values_spec (splitChar ',' body) 0 [] :=
  enumGo_eq_spec (splitChar ',' body) 0 [] hwf

/-- C8 counterexample to the claim as stated (counter read as unbounded):
on `A = 9223372036854775807, B` — entries that are all well-formed in the
sense of `enumEntryOK` — the source registers `B` as `-2^63` (the i64
counter `i64::MAX + 1` wraps), while the claim's reading demands
`B = previous + 1 = 2^63`, a value outside i64 that `parse_enum_values`
can never produce. -/
theorem parse_enum_values_overflow_counterexample :
    ((splitChar ',' "A = 9223372036854775807, B".toList).all enumEntryOK = true) ∧
    lookupA "B".toList (parse_enum_values "A = 9223372036854775807, B".toList) =
      some (-(2 ^ 63)) ∧
    lookupA "B".toList
        (enum_values_claimed (splitChar ',' "A = 9223372036854775807, B".toList) 0 []) =
      some (2 ^ 63) ∧
    parse_enum_values "A = 9223372036854775807, B".toList ≠
      enum_values_claimed (splitChar ',' "A = 9223372036854775807, B".toList) 0 [] :=
  ⟨rfl, by decide, by decide, by decide⟩

/-- Witness for `parse_enum_values_matches_spec` on
`A, B = 5, C, D = 0x10, E`. -/
theorem parse_enum_values_matches_spec_witness :
    ((splitChar ',' "A, B = 5, C, D = 0x10, E".toList).all enumEntryOK = true) ∧
    parse_enum_values "A, B = 5, C, D = 0x10, E".toList =
      enum_values_spec (splitChar ',' "A, B = 5, C, D = 0x10, E".toList) 0 [] :=
  ⟨rfl, parse_enum_values_matches_spec "A, B = 5, C, D = 0x10, E".toList rfl⟩

/-- Pointwise description of the batch write loop. -/
theorem batch_fold_spec {α : Type} (f : α → α) (input : Nat → α) :
    ∀ (n : Nat) (output : Nat → α) (i : Nat),
      ((List.range n).foldl (fun out j => Function.update out j (f (input j))) output) i =
        if i < n then f (input i) else output i := by
  intro n
  induction n with
  | zero => intro output i; simp
  | succ m ih =>
    intro output i
    rw [List.range_succ, List.foldl_append, List.foldl_cons, List.foldl_nil]
    rcases eq_or_ne i m with rfl | hne
    · simp [Function.update_same]
    · rw [Function.update_noteq hne, ih]
      by_cases h : i < m
      · simp [h, Nat.lt_succ_of_lt h]
      · have h' : ¬ i < m + 1 := by omega
        simp [h, h']

/-- C9: for any function and input memory, `ffi_batch`'s loop returns the
element count and writes exactly the elementwise application into the
output memory (`output[i] = f(input[i])` for `i < n`, untouched above);
this holds for every `n`, in particular n ∈ {0, 1, 1000}. -/
theorem ffi_batch_elementwise {α : Type} (f : α → α) (input : Nat → α)
    (output : Nat → α) (n : Nat) :
    (ffi_batch_loop f input n output).2 = n ∧
    (∀ i, i < n → (ffi_batch_loop f input n output).1 i = f (input i)) ∧
    (∀ i, n ≤ i → (ffi_batch_loop f input n output).1 i = output i) := by
  refine ⟨rfl, fun i hi => ?_, fun i hi => ?_⟩
  · rw [show (ffi_batch_loop f input n output).1 i =
        ((List.range n).foldl (fun out j => Function.update out j (f (input j))) output) i
        from rfl, batch_fold_spec]
    simp [hi]
  · rw [show (ffi_batch_loop f input n output).1 i =
        ((List.range n).foldl (fun out j => Function.update out j (f (input j))) output) i
        from rfl, batch_fold_spec]
    simp [Nat.not_lt.mpr hi]

/-- Witness for `ffi_batch_elementwise` with `f = (· + 1)` over `Int`,
`input i = i`, `n = 2`, probing the written cell 1 and the untouched
cell 5. -/
theorem ffi_batch_elementwise_witness :
    (ffi_batch_loop (fun x : Int => x + 1) (fun i => (i : Int)) 2 (fun _ => 0)).2 = 2 ∧
    ((1 : Nat) < 2 ∧
      (ffi_batch_loop (fun x : Int => x + 1) (fun i => (i : Int)) 2 (fun _ => 0)).1 1 =
        (fun i => (i : Int)) 1 + 1) ∧
    ((2 : Nat) ≤ 5 ∧
      (ffi_batch_loop (fun x : Int => x + 1) (fun i => (i : Int)) 2 (fun _ => 0)).1 5 =
        (fun _ => (0 : Int)) 5) :=
  ⟨(ffi_batch_elementwise (fun x : Int => x + 1) (fun i => (i : Int)) (fun _ => 0) 2).1,
   ⟨by decide,
    (ffi_batch_elementwise (fun x : Int => x + 1) (fun i => (i : Int)) (fun _ => 0) 2).2.1
      1 (by decide)⟩,
   ⟨by decide,
    (ffi_batch_elementwise (fun x : Int => x + 1) (fun i => (i : Int)) (fun _ => 0) 2).2.2
      5 (by decide)⟩⟩

